import Mathlib

/-!
Verification of the gocxx networking runtime (TCP/UDP/TLS transports and the
HTTP layer) against its specification.  The C++ sources are shallowly embedded:
pure logic becomes Lean functions, member functions become explicit
state-passing functions, OS syscalls (recv/send/shutdown, OpenSSL calls, DNS)
become explicit outcome parameters, and the project's `Result<T>` /
`errors::Error` machinery becomes a small error inductive plus a value/error
pair.  C++ `std::string` values that the code searches or splits are embedded
as `List Char`.
-/

namespace Gocxx

/-- Character strings, embedded as lists of characters
(`std::string` in the source). -/
abbrev Str := List Char

/-- The process-wide error values (`gocxx::errors`): the named errors
`ErrClosed`, `ErrTimeout`, `ErrInvalidAddr` from `net.cpp` plus
`errors::New(msg)` for ad-hoc message errors. -/
inductive Err where
  | closed
  | timeout
  | invalidAddr
  | mk (msg : String)
deriving DecidableEq

/-- `gocxx::base::Result<T>`: a value together with an optional error
(`{value, err}` in the source; `Ok()` means `err == nullptr`). -/
structure Result (α : Type) where
  value : α
  err : Option Err
deriving DecidableEq

/-! ## ResponseWriter (`ResponseWriterImpl`, part_006 lines 50-107)

The writer state tracks the latched status code, the `headers_written_`
flag, the outgoing header map and the bytes written so far to the
underlying connection (`out`).  `emits` is a ghost counter incremented
exactly when a status line is flushed to the connection; it tracks no
information the C++ object does not determine. -/

structure RWState where
  status_code : Int
  headers_written : Bool
  headers : List (String × String)
  out : String
  emits : Nat
deriving DecidableEq

/-- A freshly constructed `ResponseWriterImpl` (status 200, headers not
yet written, empty header map, nothing sent). -/
def initRW : RWState := ⟨200, false, [], "", 0⟩

/-- The status-text switch in `ResponseWriterImpl::WriteHeader`. -/
def statusText (code : Int) : String :=
  if code = 200 then "OK"
  else if code = 201 then "Created"
  else if code = 400 then "Bad Request"
  else if code = 404 then "Not Found"
  else if code = 500 then "Internal Server Error"
  else "Unknown"

/-- The header block: one `key: value\r\n` line per map entry. -/
def headerLines : List (String × String) → String
  | [] => ""
  | (k, v) :: rest => k ++ ": " ++ v ++ "\r\n" ++ headerLines rest

/-- The bytes `WriteHeader` sends: status line, header lines, blank line. -/
def statusBlock (code : Int) (hs : List (String × String)) : String :=
  "HTTP/1.1 " ++ toString code ++ " " ++ statusText code ++ "\r\n"
    ++ headerLines hs ++ "\r\n"

/-- `ResponseWriterImpl::WriteHeader(statusCode)`: a no-op when headers
were already written, otherwise latches the code, marks headers written
and sends the status block. -/
def WriteHeader (s : RWState) (code : Int) : RWState :=
  if s.headers_written then s
  else { s with
          status_code := code
          headers_written := true
          out := s.out ++ statusBlock code s.headers
          emits := s.emits + 1 }

/-- `ResponseWriterImpl::Write(data)`: flushes headers with the current
status code if not yet written, then writes `data` to the connection. -/
def RWWrite (s : RWState) (data : String) : RWState :=
  let s' := if s.headers_written then s else WriteHeader s s.status_code
  { s' with out := s'.out ++ data }

/-- A caller-visible operation on a `ResponseWriter`. -/
inductive RWOp where
  | writeHeader (code : Int)
  | write (data : String)

/-- Run a sequence of `WriteHeader`/`Write` calls. -/
def runRW (s : RWState) : List RWOp → RWState
  | [] => s
  | .writeHeader c :: ops => runRW (WriteHeader s c) ops
  | .write d :: ops => runRW (RWWrite s d) ops

/-! ## ServeMux (part_006 lines 109-141)

`ServeMux` owns `handlers_ : std::map<std::string, HandlerFunc>`, embedded
as an association list whose key order models the map's iteration order
(keys of a `std::map` are unique).  A handler is a state transformer on the
response writer. -/

/-- `req.url.find(pattern) == 0`: `pat` occurs at position 0 of `s`. -/
def hasPre : Str → Str → Bool
  | [], _ => true
  | _, [] => false
  | p :: ps, c :: cs => p = c && hasPre ps cs

/-- `handlers_.find(req.url)`: exact-match lookup. -/
def findExact {α : Type} : List (Str × α) → Str → Option α
  | [], _ => none
  | (p, h) :: rest, url => if p = url then some h else findExact rest url

/-- The prefix-scan loop of `ServeMux::ServeHTTP`: walk the entries,
keeping the current `longest_match`/`matched_handler` pair and replacing
it whenever a pattern is a prefix of the url and strictly longer. -/
def prefixScan {α : Type} : List (Str × α) → Str → Str → Option α → Str × Option α
  | [], _, best, bh => (best, bh)
  | (p, h) :: rest, url, best, bh =>
    if hasPre p url && decide (best.length < p.length) then
      prefixScan rest url p (some h)
    else
      prefixScan rest url best bh

/-- `ServeMux::ServeHTTP(w, req)`: exact match first; otherwise the prefix
scan starting from the empty `longest_match`; otherwise
`WriteHeader(404)` followed by `Write("404 page not found\n")`. -/
def ServeHTTP (handlers : List (Str × (RWState → RWState))) (w : RWState)
    (url : Str) : RWState :=
  match findExact handlers url with
  | some h => h w
  | none =>
    match prefixScan handlers url [] none with
    | (best, bh) =>
      if best ≠ [] then
        match bh with
        | some h => h w
        | none => w
      else
        RWWrite (WriteHeader w 404) "404 page not found\n"

/-! ## TCP transport (`os.cpp` lines 630-1045)

A `TCPConn` owns a socket handle, a `closed_` flag and two recorded
deadlines (`std::chrono` time points, embedded as integers).  A blocking
syscall's behaviour is an explicit parameter: `SysRes` classifies the
return of `recv`/`send` as either an errno or a byte count.  `releases`
is a ghost counter of `SOCKET_CLOSE` calls on the owned handle. -/

/-- The errno values `socketErrorToError` distinguishes (POSIX branch). -/
inductive Errno where
  | etimedout
  | econnreset
  | enotconn
  | epipe
  | eaddrinuse
  | eaddrnotavail
  | other (msg : String)
deriving DecidableEq

/-- `socketErrorToError` (os.cpp lines 652-667): the errno-to-error
taxonomy used by the TCP code.  `msg` in the default case stands for the
`strerror` text. -/
def socketErrorToError : Errno → Err
  | .etimedout => .timeout
  | .econnreset => .closed
  | .enotconn => .closed
  | .epipe => .closed
  | .eaddrinuse => .mk "address already in use"
  | .eaddrnotavail => .mk "cannot assign requested address"
  | .other msg => .mk ("socket error: " ++ msg)

/-- The near-duplicate `socketErrorToError` in net.cpp (lines 70-80, POSIX
branch) used by the UDP code: it lacks the `EPIPE` and bind-failure
special cases, which fall into the `strerror` default (whose exact text
is not modeled beyond a fixed tag). -/
def socketErrorToErrorUDP : Errno → Err
  | .etimedout => .timeout
  | .econnreset => .closed
  | .enotconn => .closed
  | .other msg => .mk ("socket error: " ++ msg)
  | _ => .mk "socket error: (strerror text)"

/-- Outcome of one `recv`/`send`/`recvfrom`/`sendto` call: an errno
(negative return) or a transferred byte count (return `≥ 0`). -/
inductive SysRes where
  | err (e : Errno)
  | ok (n : Nat)
deriving DecidableEq

/-- `std::chrono::system_clock::time_point::max()`, the sentinel both
deadlines start at (os.cpp lines 705-706). -/
def tpMax : Int := 9223372036854775807

structure TCPConn where
  closed : Bool
  read_deadline : Int
  write_deadline : Int
  releases : Nat
deriving DecidableEq

/-- A just-constructed `TCPConn` (os.cpp lines 703-707). -/
def TCPConn.fresh : TCPConn := ⟨false, tpMax, tpMax, 0⟩

/-- `TCPConn::Read` (os.cpp lines 715-738): rejected with `ErrClosed` when
closed, otherwise one blocking `recv`; a negative return maps the errno,
zero bytes with no error is surfaced as `ErrClosed`, positive counts
succeed.  The recorded deadlines are not consulted (TODO at line 720).
No member is written, so the state passes through unchanged. -/
def TCPConn.Read (c : TCPConn) (recv : SysRes) : TCPConn × Result Nat :=
  if c.closed then (c, ⟨0, some .closed⟩)
  else
    match recv with
    | .err e => (c, ⟨0, some (socketErrorToError e)⟩)
    | .ok 0 => (c, ⟨0, some .closed⟩)
    | .ok n => (c, ⟨n, none⟩)

/-- `TCPConn::Write` (os.cpp lines 740-758): closed check, one `send`,
errno mapping; no zero-special-case and no deadline use (TODO at 745). -/
def TCPConn.Write (c : TCPConn) (send : SysRes) : TCPConn × Result Nat :=
  if c.closed then (c, ⟨0, some .closed⟩)
  else
    match send with
    | .err e => (c, ⟨0, some (socketErrorToError e)⟩)
    | .ok n => (c, ⟨n, none⟩)

/-- `TCPConn::close` (os.cpp lines 760-765): releases the handle and sets
`closed_` only when not already closed; returns nothing. -/
def TCPConn.close (c : TCPConn) : TCPConn :=
  if c.closed then c
  else { c with closed := true, releases := c.releases + 1 }

/-- `TCPConn::SetReadDeadline` (os.cpp lines 775-779): records the
deadline and reports success (the TODO notes no socket option is set). -/
def TCPConn.SetReadDeadline (c : TCPConn) (d : Int) : TCPConn × Option Err :=
  ({ c with read_deadline := d }, none)

/-- `TCPConn::SetWriteDeadline` (os.cpp lines 781-785). -/
def TCPConn.SetWriteDeadline (c : TCPConn) (d : Int) : TCPConn × Option Err :=
  ({ c with write_deadline := d }, none)

/-- `TCPConn::SetDeadline` (os.cpp lines 787-792). -/
def TCPConn.SetDeadline (c : TCPConn) (d : Int) : TCPConn × Option Err :=
  ({ c with read_deadline := d, write_deadline := d }, none)

/-- `TCPConn::CloseRead` (os.cpp lines 794-808): rejected with `ErrClosed`
when fully closed, otherwise `shutdown(SHUT_RD)` whose failing errno (if
any) is mapped. -/
def TCPConn.CloseRead (c : TCPConn) (shutdownRes : Option Errno) :
    TCPConn × Option Err :=
  if c.closed then (c, some .closed)
  else
    match shutdownRes with
    | some e => (c, some (socketErrorToError e))
    | none => (c, none)

/-- `TCPConn::CloseWrite` (os.cpp lines 810-824): as `CloseRead` with
`SHUT_WR`. -/
def TCPConn.CloseWrite (c : TCPConn) (shutdownRes : Option Errno) :
    TCPConn × Option Err :=
  if c.closed then (c, some .closed)
  else
    match shutdownRes with
    | some e => (c, some (socketErrorToError e))
    | none => (c, none)

structure TCPListener where
  closed : Bool
  releases : Nat
deriving DecidableEq

/-- A just-constructed `TCPListener` (os.cpp lines 827-828). -/
def TCPListener.fresh : TCPListener := ⟨false, 0⟩

/-- `TCPListener::Close` (os.cpp lines 867-875): when already closed it
returns `ErrClosed` without touching the handle; otherwise it releases
the handle once, marks the listener closed and returns success. -/
def TCPListener.Close (l : TCPListener) : TCPListener × Option Err :=
  if l.closed then (l, some .closed)
  else ({ l with closed := true, releases := l.releases + 1 }, none)

/-! ## UDP transport (`net.cpp` lines 109-419) -/

structure UDPConn where
  closed : Bool
  read_deadline : Int
  write_deadline : Int
  releases : Nat
deriving DecidableEq

/-- A just-constructed `UDPConn` (net.cpp lines 115-119). -/
def UDPConn.fresh : UDPConn := ⟨false, tpMax, tpMax, 0⟩

/-- `TCPAddr` (tcp.h): ip string and port; `Network()` is the constant
`"tcp"` and `String()` is `ip + ":" + std::to_string(port)`
(os.cpp lines 698-700). -/
structure TCPAddr where
  ip : Str
  port : Int
deriving DecidableEq

def TCPAddr.Network (_ : TCPAddr) : String := "tcp"

def TCPAddr.toStr (a : TCPAddr) : Str := a.ip ++ ':' :: (toString a.port).data

/-- `UDPAddr` (udp.h): `Network()` is the constant `"udp"`;
`String()` as for TCP (net.cpp lines 110-112). -/
structure UDPAddr where
  ip : Str
  port : Int
deriving DecidableEq

def UDPAddr.Network (_ : UDPAddr) : String := "udp"

def UDPAddr.toStr (a : UDPAddr) : Str := a.ip ++ ':' :: (toString a.port).data

/-- `UDPConn::Read` (net.cpp lines 214-230): closed check, one `recv`,
errno mapping; unlike TCP a zero-byte datagram is a valid success. -/
def UDPConn.Read (c : UDPConn) (recv : SysRes) : UDPConn × Result Nat :=
  if c.closed then (c, ⟨0, some .closed⟩)
  else
    match recv with
    | .err e => (c, ⟨0, some (socketErrorToErrorUDP e)⟩)
    | .ok n => (c, ⟨n, none⟩)

/-- `UDPConn::Write` (net.cpp lines 232-248). -/
def UDPConn.Write (c : UDPConn) (send : SysRes) : UDPConn × Result Nat :=
  if c.closed then (c, ⟨0, some .closed⟩)
  else
    match send with
    | .err e => (c, ⟨0, some (socketErrorToErrorUDP e)⟩)
    | .ok n => (c, ⟨n, none⟩)

/-- `UDPConn::ReadFrom` (net.cpp lines 127-164): closed check, one
`recvfrom` whose outcome and reported sender endpoint are explicit
parameters; on success the sender address is returned alongside the
count. -/
def UDPConn.ReadFrom (c : UDPConn) (recv : SysRes) (sender : UDPAddr) :
    UDPConn × Result Nat × Option UDPAddr :=
  if c.closed then (c, ⟨0, some .closed⟩, none)
  else
    match recv with
    | .err e => (c, ⟨0, some (socketErrorToErrorUDP e)⟩, none)
    | .ok n => (c, ⟨n, none⟩, some sender)

/-- A generic `Addr` argument with its dynamic type
(`dynamic_pointer_cast<UDPAddr>` in `WriteTo`). -/
inductive AddrVal where
  | tcp (a : TCPAddr)
  | udp (a : UDPAddr)
deriving DecidableEq

/-- `UDPConn::WriteToUDP` (net.cpp lines 265-294): closed check, one
`sendto` to the given peer. -/
def UDPConn.WriteToUDP (c : UDPConn) (sendto : SysRes) (_ : UDPAddr) :
    UDPConn × Result Nat :=
  if c.closed then (c, ⟨0, some .closed⟩)
  else
    match sendto with
    | .err e => (c, ⟨0, some (socketErrorToErrorUDP e)⟩)
    | .ok n => (c, ⟨n, none⟩)

/-- `UDPConn::WriteTo` (net.cpp lines 166-182): closed check, then the
`UDPAddr` downcast, then delegation to `WriteToUDP`. -/
def UDPConn.WriteTo (c : UDPConn) (sendto : SysRes) (addr : AddrVal) :
    UDPConn × Result Nat :=
  if c.closed then (c, ⟨0, some .closed⟩)
  else
    match addr with
    | .udp a => UDPConn.WriteToUDP c sendto a
    | .tcp _ => (c, ⟨0, some (.mk "address must be UDPAddr")⟩)

/-- `UDPConn::close` (net.cpp lines 207-212). -/
def UDPConn.close (c : UDPConn) : UDPConn :=
  if c.closed then c
  else { c with closed := true, releases := c.releases + 1 }

/-! ## Address resolution (`os.cpp` lines 670-695, 882-916 and the UDP
duplicates in net.cpp) -/

/-- The whitespace characters `std::stoi` skips (C `isspace`). -/
def isSpaceC (c : Char) : Bool :=
  c == ' ' || c == '\t' || c == '\n' || c == '\x0b' || c == '\x0c' || c == '\r'

/-- Numeric value of a decimal digit character. -/
def digitVal (c : Char) : Nat := c.toNat - '0'.toNat

/-- `std::stoi` as applied to the port substring (os.cpp line 686): skip
leading whitespace, accept an optional sign, require at least one digit,
convert the longest leading digit run and ignore the rest;
`std::invalid_argument` (no digits) and `std::out_of_range` (outside
`int`) are thrown and caught by the surrounding `try`, so both become
`none` here. -/
def cppStoi (s : Str) : Option Int :=
  let s1 := s.dropWhile isSpaceC
  let signAndRest : Bool × Str :=
    match s1 with
    | '-' :: rest => (true, rest)
    | '+' :: rest => (false, rest)
    | _ => (false, s1)
  let digits := signAndRest.2.takeWhile Char.isDigit
  if digits = [] then none
  else
    let mag : Int := Int.ofNat (digits.foldl (fun acc c => 10 * acc + digitVal c) 0)
    let v : Int := if signAndRest.1 then -mag else mag
    if v < -2147483648 ∨ 2147483647 < v then none else some v

/-- Index of the last `':'` (`address.rfind(':')`). -/
def lastColonIdx : Str → Option Nat
  | [] => none
  | c :: rest =>
    match lastColonIdx rest with
    | some i => some (i + 1)
    | none => if c = ':' then some 0 else none

/-- `parseAddress` (os.cpp lines 671-695, duplicated at net.cpp lines
84-107): split at the last colon, map an empty host to `"0.0.0.0"`,
parse the port with `std::stoi` and require `0 ≤ port ≤ 65535`. -/
def parseAddress (address : Str) : Option (Str × Int) :=
  match lastColonIdx address with
  | none => none
  | some i =>
    let host := address.take i
    let port_str := address.drop (i + 1)
    let host' := if host = [] then "0.0.0.0".data else host
    match cppStoi port_str with
    | none => none
    | some port => if port < 0 ∨ port > 65535 then none else some (host', port)

/-- `ResolveTCPAddr` (os.cpp lines 882-916).  `resolve` stands for
`getaddrinfo`'s first IPv4 result for a host (an external lookup). -/
def ResolveTCPAddr (resolve : Str → Option Str) (network : String)
    (address : Str) : Except Err TCPAddr :=
  if network ≠ "tcp" ∧ network ≠ "tcp4" ∧ network ≠ "tcp6" then
    .error (.mk ("unsupported network type: " ++ network))
  else
    match parseAddress address with
    | none => .error .invalidAddr
    | some (host, port) =>
      match resolve host with
      | none => .error (.mk ("cannot resolve address: " ++ ⟨host⟩))
      | some ip => .ok ⟨ip, port⟩

/-- `ResolveUDPAddr` (net.cpp lines 297-330): identical shape over the
UDP network names. -/
def ResolveUDPAddr (resolve : Str → Option Str) (network : String)
    (address : Str) : Except Err UDPAddr :=
  if network ≠ "udp" ∧ network ≠ "udp4" ∧ network ≠ "udp6" then
    .error (.mk ("unsupported network type: " ++ network))
  else
    match parseAddress address with
    | none => .error .invalidAddr
    | some (host, port) =>
      match resolve host with
      | none => .error (.mk ("cannot resolve address: " ++ ⟨host⟩))
      | some ip => .ok ⟨ip, port⟩

/-- The protocol family named by an allowed network string: `"udp"` for
the UDP variants, `"tcp"` otherwise (statement-side vocabulary for the
round-trip property). -/
def networkFamily (network : String) : String :=
  if network = "udp" ∨ network = "udp4" ∨ network = "udp6" then "udp" else "tcp"

/-! ## TLS transport (`tls.cpp`) -/

/-- Classification by `SSL_get_error` of a non-positive SSL return. -/
inductive SSLErrKind where
  | wantRead
  | wantWrite
  | other (msg : String)
deriving DecidableEq

/-- One `SSL_read`/`SSL_write` call's observable outcome: the raw return
value and the `SSL_get_error` classification consulted when it is not
positive. -/
structure SSLCall where
  ret : Int
  errKind : SSLErrKind
deriving DecidableEq

/-- A `TLSConn`'s session pointer state: `ssl` is false once `close` (or
a failed construction) nulled `ssl_`. -/
structure TLSConn where
  ssl : Bool
deriving DecidableEq

/-- `TLSConn::Read` (tls.cpp lines 90-109): null-session check; a positive
return is that many bytes; a zero return (clean TLS shutdown) is a
zero-byte success; `WANT_READ`/`WANT_WRITE` is a retryable zero-byte
success; anything else is an error. -/
def TLSConn.Read (c : TLSConn) (call : SSLCall) : Result Nat :=
  if ¬c.ssl then ⟨0, some (.mk "TLS connection closed")⟩
  else if call.ret > 0 then ⟨call.ret.toNat, none⟩
  else if call.ret = 0 then ⟨0, none⟩
  else
    match call.errKind with
    | .wantRead => ⟨0, none⟩
    | .wantWrite => ⟨0, none⟩
    | .other msg => ⟨0, some (.mk ("SSL_read failed: " ++ msg))⟩

/-- `TLSConn::Write` (tls.cpp lines 111-127): null-session check; a
positive return is that many bytes; every non-positive return consults
`SSL_get_error`, and `WANT_READ`/`WANT_WRITE` is surfaced as the
`"SSL_write would block"` error. -/
def TLSConn.Write (c : TLSConn) (call : SSLCall) : Result Nat :=
  if ¬c.ssl then ⟨0, some (.mk "TLS connection closed")⟩
  else if call.ret > 0 then ⟨call.ret.toNat, none⟩
  else
    match call.errKind with
    | .wantRead => ⟨0, some (.mk "SSL_write would block")⟩
    | .wantWrite => ⟨0, some (.mk "SSL_write would block")⟩
    | .other msg => ⟨0, some (.mk ("SSL_write failed: " ++ msg))⟩

/-- `TLSConfig` (tls.h): default-constructed fields are empty paths and
`insecure_skip_verify = false`. -/
structure TLSConfig where
  cert_file : String := ""
  key_file : String := ""
  ca_file : String := ""
  insecure_skip_verify : Bool := false
deriving DecidableEq

/-- Ghost record of what `DialTLS` configured on the client SSL context. -/
structure CtxInfo where
  verify_peer : Bool
  ca_file_loaded : Bool
  system_ca_loaded : Bool
  identity_loaded : Bool
deriving DecidableEq

/-- Outcomes of the external calls `DialTLS` makes, in program order:
`dial` is `DialTCP`'s error if it failed, the rest are the OpenSSL calls'
success bits. -/
structure DialTLSWorld where
  dial : Option Err
  ctxNewOk : Bool
  loadCAOk : Bool
  loadCertOk : Bool
  loadKeyOk : Bool
  sslNewOk : Bool
  handshakeOk : Bool
deriving DecidableEq

/-- The tail of `DialTLS` after context configuration: `SSL_new`, SNI and
hostname setup, `SSL_connect` (tls.cpp lines 256-297). -/
def dialTLSFinish (w : DialTLSWorld) (ctx : CtxInfo) : Except Err CtxInfo :=
  if ¬w.sslNewOk then .error (.mk "SSL_new failed")
  else if ¬w.handshakeOk then .error (.mk "SSL_connect failed")
  else .ok ctx

/-- The client-identity step of `DialTLS` (tls.cpp lines 237-249): the
certificate/key pair is loaded only when *both* paths are nonempty;
otherwise the step is skipped entirely. -/
def dialTLSIdentity (cfg : TLSConfig) (w : DialTLSWorld) (ctx : CtxInfo) :
    Except Err CtxInfo :=
  if cfg.cert_file ≠ "" ∧ cfg.key_file ≠ "" then
    if ¬w.loadCertOk then .error (.mk "Failed to load certificate")
    else if ¬w.loadKeyOk then .error (.mk "Failed to load private key")
    else dialTLSFinish w { ctx with identity_loaded := true }
  else dialTLSFinish w ctx

/-- `DialTLS` (tls.cpp lines 193-298): TCP dial, `SSL_CTX_new`, trust
policy (skip-verify / explicit CA file / system store), optional client
identity, then `SSL_new` and the handshake; each external call's outcome
comes from `w`.  On success the configured context is returned. -/
def DialTLS (config : Option TLSConfig) (w : DialTLSWorld) : Except Err CtxInfo :=
  match w.dial with
  | some e => .error e
  | none =>
    if ¬w.ctxNewOk then .error (.mk "SSL_CTX_new failed")
    else
      match config with
      | some cfg =>
        if cfg.insecure_skip_verify then
          dialTLSIdentity cfg w ⟨false, false, false, false⟩
        else if cfg.ca_file ≠ "" then
          if ¬w.loadCAOk then .error (.mk "Failed to load CA file")
          else dialTLSIdentity cfg w ⟨true, true, false, false⟩
        else
          dialTLSIdentity cfg w ⟨true, false, true, false⟩
      | none => dialTLSFinish w ⟨true, false, true, false⟩

/-! ## HTTP client URL parsing (`Get`, part_006 lines 289-325, and the
verbatim copy in `Post`, lines 430-464) -/

/-- Index of the first `'/'` (`rest.find('/')`). -/
def firstSlashIdx : Str → Option Nat
  | [] => none
  | c :: rest => if c = '/' then some 0 else (firstSlashIdx rest).map (· + 1)

/-- `address.find(':') != npos`. -/
def hasColon (s : Str) : Bool := s.contains ':'

/-- The characters of `"https://"`. -/
def httpsScheme : Str := ['h', 't', 't', 'p', 's', ':', '/', '/']

/-- The characters of `"http://"`. -/
def httpScheme : Str := ['h', 't', 't', 'p', ':', '/', '/']

/-- Character predicate used to express the address/path split: true away
from `'/'`. -/
def notSlash (c : Char) : Bool := c != '/'

/-- The URL-parsing prologue shared by `Get` and `Post`: only `http://`
and `https://` schemes are accepted; the remainder splits into the
address (before the first `'/'`) and the path (from the first `'/'`,
defaulting to `"/"`); a default port (80/443) is appended when the
address has no colon.  Returns the dial address, the path and whether
TLS is used. -/
def httpParseURL (url : Str) : Except Err (Str × Str × Bool) :=
  if hasPre httpsScheme url then
    let rest := url.drop 8
    let split : Str × Str :=
      match firstSlashIdx rest with
      | some i => (rest.take i, rest.drop i)
      | none => (rest, ['/'])
    let address := if hasColon split.1 then split.1 else split.1 ++ [':', '4', '4', '3']
    .ok (address, split.2, true)
  else if hasPre httpScheme url then
    let rest := url.drop 7
    let split : Str × Str :=
      match firstSlashIdx rest with
      | some i => (rest.take i, rest.drop i)
      | none => (rest, ['/'])
    let address := if hasColon split.1 then split.1 else split.1 ++ [':', '8', '0']
    .ok (address, split.2, false)
  else
    .error (.mk "invalid URL: must start with http:// or https://")

/-- Whether `Get`/`Post` reach their `DialTCP`/`DialTLS` call for this
url: in the source every connection attempt follows a successful scheme
parse, so dialing is attempted exactly when parsing succeeds. -/
def httpAttemptsDial (url : Str) : Bool :=
  match httpParseURL url with
  | .ok _ => true
  | .error _ => false

/-! ## Theorems -/

lemma WriteHeader_emits (s : RWState) (c : Int) :
    (WriteHeader s c).emits ≤ s.emits + (if s.headers_written then 0 else 1) := by
  unfold WriteHeader
  split <;> simp

lemma WriteHeader_written (s : RWState) (c : Int) :
    s.headers_written = true → WriteHeader s c = s := by
  intro h
  unfold WriteHeader
  simp [h]

lemma WriteHeader_written_after (s : RWState) (c : Int) :
    (WriteHeader s c).headers_written = true := by
  unfold WriteHeader
  split
  · assumption
  · rfl

lemma RWWrite_written_after (s : RWState) (d : String) :
    (RWWrite s d).headers_written = s.headers_written ∨
      (RWWrite s d).headers_written = true := by
  unfold RWWrite
  split
  · left; rfl
  · right; exact WriteHeader_written_after s _

lemma runRW_emits (ops : List RWOp) : ∀ s : RWState,
    (runRW s ops).emits ≤ s.emits + (if s.headers_written then 0 else 1) := by
  induction ops with
  | nil => intro s; split <;> simp [runRW]
  | cons op rest ih =>
    intro s
    match op with
    | .writeHeader c =>
      show (runRW (WriteHeader s c) rest).emits ≤ _
      refine le_trans (ih (WriteHeader s c)) ?_
      by_cases hw : s.headers_written
      · rw [WriteHeader_written s c hw]
      · have h2 : (WriteHeader s c).emits = s.emits + 1 := by
          unfold WriteHeader
          simp [hw]
        simp [WriteHeader_written_after, h2, hw]
    | .write d =>
      show (runRW (RWWrite s d) rest).emits ≤ _
      refine le_trans (ih (RWWrite s d)) ?_
      by_cases hw : s.headers_written
      · have h1 : RWWrite s d = { s with out := s.out ++ d } := by
          unfold RWWrite
          simp [hw]
        simp [h1, hw]
      · have h1 : RWWrite s d =
            { WriteHeader s s.status_code with
                out := (WriteHeader s s.status_code).out ++ d } := by
          unfold RWWrite
          simp [hw]
        have h2 : (WriteHeader s s.status_code).emits = s.emits + 1 := by
          unfold WriteHeader
          simp [hw]
        simp [h1, WriteHeader_written_after, h2, hw]

lemma hasPre_exists {p s : Str} (h : hasPre p s = true) : ∃ t, s = p ++ t := by
  induction p generalizing s with
  | nil => exact ⟨s, rfl⟩
  | cons c cs ih =>
    cases s with
    | nil => simp [hasPre] at h
    | cons d ds =>
      simp only [hasPre, Bool.and_eq_true, decide_eq_true_eq] at h
      obtain ⟨rfl, h2⟩ := h
      obtain ⟨t, rfl⟩ := ih h2
      exact ⟨t, rfl⟩

lemma hasPre_length {p s : Str} (h : hasPre p s = true) : p.length ≤ s.length := by
  obtain ⟨t, rfl⟩ := hasPre_exists h
  simp

lemma hasPre_eq_of_length {p q s : Str} (hp : hasPre p s = true)
    (hq : hasPre q s = true) (hl : p.length = q.length) : p = q := by
  obtain ⟨t1, h1⟩ := hasPre_exists hp
  obtain ⟨t2, h2⟩ := hasPre_exists hq
  exact (List.append_inj (h1 ▸ h2.symm) hl.symm).1.symm

lemma prefixScan_stay {α : Type} (url : Str) :
    ∀ (hs : List (Str × α)) (best : Str) (bh : Option α),
    (∀ q ∈ hs.map Prod.fst, hasPre q url = true → q.length ≤ best.length) →
    prefixScan hs url best bh = (best, bh) := by
  intro hs
  induction hs with
  | nil => intro best bh _; rfl
  | cons hd rest ih =>
    intro best bh hbound
    obtain ⟨q, h'⟩ := hd
    have hq : hasPre q url = true → q.length ≤ best.length :=
      hbound q (List.mem_cons_self _ _)
    show prefixScan ((q, h') :: rest) url best bh = (best, bh)
    unfold prefixScan
    have hcond : (hasPre q url && decide (best.length < q.length)) = false := by
      by_cases hpre : hasPre q url = true
      · have := hq hpre
        simp [hpre, Nat.not_lt.mpr this]
      · simp [Bool.eq_false_iff.mpr hpre]
    rw [hcond]
    simp only [Bool.false_eq_true, if_false]
    exact ih best bh (fun q' hq' => hbound q' (List.mem_cons_of_mem _ hq'))

lemma prefixScan_sel {α : Type} (url p : Str) (h : α) :
    ∀ (hs : List (Str × α)) (best : Str) (bh : Option α),
    (p, h) ∈ hs → hasPre p url = true →
    (∀ q ∈ hs.map Prod.fst, hasPre q url = true → q.length ≤ p.length) →
    (hs.map Prod.fst).Nodup →
    best.length < p.length →
    prefixScan hs url best bh = (p, some h) := by
  intro hs
  induction hs with
  | nil => intro best bh hmem; simp at hmem
  | cons hd rest ih =>
    intro best bh hmem hp hbound hnd hlt
    obtain ⟨q, h'⟩ := hd
    have hnd' : (rest.map Prod.fst).Nodup := (List.nodup_cons.mp hnd).2
    have hqnotin : q ∉ rest.map Prod.fst := (List.nodup_cons.mp hnd).1
    rcases List.mem_cons.mp hmem with heq | hmem'
    · obtain ⟨rfl, rfl⟩ := Prod.mk.injEq _ _ _ _ ▸ heq
      show prefixScan ((p, h) :: rest) url best bh = (p, some h)
      unfold prefixScan
      rw [if_pos (by simp [hp, hlt])]
      exact prefixScan_stay url rest p (some h) (fun q' hq' hpre =>
        hbound q' (List.mem_cons_of_mem _ hq') hpre)
    · have hpq : q ≠ p := by
        intro hqp
        exact hqnotin (hqp ▸ List.mem_map_of_mem Prod.fst hmem')
      show prefixScan ((q, h') :: rest) url best bh = (p, some h)
      unfold prefixScan
      by_cases hcond : (hasPre q url && decide (best.length < q.length)) = true
      · rw [if_pos hcond]
        simp only [Bool.and_eq_true, decide_eq_true_eq] at hcond
        have hqle : q.length ≤ p.length := hbound q (List.mem_cons_self _ _) hcond.1
        have hqlt : q.length < p.length := by
          rcases Nat.lt_or_ge q.length p.length with hl | hg
          · exact hl
          · exact absurd (hasPre_eq_of_length hcond.1 hp (Nat.le_antisymm hqle hg))
              hpq
        exact ih q (some h') hmem' hp
          (fun q' hq' => hbound q' (List.mem_cons_of_mem _ hq')) hnd' hqlt
      · rw [if_neg (by simp [hcond])]
        exact ih best bh hmem' hp
          (fun q' hq' => hbound q' (List.mem_cons_of_mem _ hq')) hnd' hlt

lemma findExact_eq_none {α : Type} (url : Str) :
    ∀ hs : List (Str × α), url ∉ hs.map Prod.fst → findExact hs url = none := by
  intro hs
  induction hs with
  | nil => intro _; rfl
  | cons hd rest ih =>
    intro hnotin
    obtain ⟨p, h⟩ := hd
    have hne : p ≠ url := by
      intro hpe
      exact hnotin (by rw [← hpe]; exact List.mem_cons_self _ _)
    show findExact ((p, h) :: rest) url = none
    unfold findExact
    rw [if_neg hne]
    exact ih (fun hmem => hnotin (List.mem_cons_of_mem _ hmem))

lemma findExact_mem {α : Type} (url : Str) (h : α) :
    ∀ hs : List (Str × α), (url, h) ∈ hs → (hs.map Prod.fst).Nodup →
    findExact hs url = some h := by
  intro hs
  induction hs with
  | nil => intro hmem _; simp at hmem
  | cons hd rest ih =>
    intro hmem hnd
    obtain ⟨p, h'⟩ := hd
    rcases List.mem_cons.mp hmem with heq | hmem'
    · obtain ⟨rfl, rfl⟩ := Prod.mk.injEq _ _ _ _ ▸ heq
      show findExact ((url, h) :: rest) url = some h
      unfold findExact
      rw [if_pos rfl]
    · have hne : p ≠ url := by
        intro hpe
        have hin : url ∈ rest.map Prod.fst :=
          List.mem_map_of_mem Prod.fst hmem'
        exact (List.nodup_cons.mp hnd).1 (by rw [hpe]; exact hin)
      show findExact ((p, h') :: rest) url = some h
      unfold findExact
      rw [if_neg hne]
      exact ih hmem' (List.nodup_cons.mp hnd).2

/-- **C2.** The first `WriteHeader(code)` on a fresh writer emits exactly the
status line (canonical reason phrase, `"Unknown"` otherwise), the current
header lines and a blank line, and latches `code`; any later `WriteHeader`
is a no-op (so across an arbitrary sequence of operations at most one
status block is ever emitted); and a `Write(data)` made before any
`WriteHeader` emits the 200 status block first, then `data`. -/
theorem responseWriter_latch_and_implicit_200
    (code c' : Int) (hs : List (String × String)) (data : String)
    (ops : List RWOp) :
    (WriteHeader { initRW with headers := hs } code).out = statusBlock code hs
      ∧ (WriteHeader { initRW with headers := hs } code).status_code = code
      ∧ (∀ s : RWState, WriteHeader (WriteHeader s code) c' = WriteHeader s code)
      ∧ (runRW { initRW with headers := hs } ops).emits ≤ 1
      ∧ (RWWrite { initRW with headers := hs } data).out
          = statusBlock 200 hs ++ data
      ∧ statusText 200 = "OK" ∧ statusText 201 = "Created"
      ∧ statusText 400 = "Bad Request" ∧ statusText 404 = "Not Found"
      ∧ statusText 500 = "Internal Server Error" ∧ statusText 402 = "Unknown" := by
  refine ⟨?_, ?_, ?_, ?_, ?_, by decide, by decide, by decide, by decide,
    by decide, by decide⟩
  · unfold WriteHeader
    simp [initRW]
  · unfold WriteHeader
    simp [initRW]
  · intro s
    exact WriteHeader_written (WriteHeader s code) c'
      (WriteHeader_written_after s code)
  · have h := runRW_emits ops { initRW with headers := hs }
    simpa [initRW] using h
  · unfold RWWrite WriteHeader
    simp [initRW]

/-- **C1 (amended).** `ServeMux::ServeHTTP` dispatches to the handler whose
pattern exactly equals `request.url` when one is registered; otherwise to
the handler of the longest registered *nonempty* pattern that is a string
prefix of `request.url`; and when every prefix-matching registered pattern
is empty (in particular when none matches at all) it writes a 404 status
block followed by the exact body `"404 page not found\n"`.  (The original
claim fails for the empty pattern: the prefix scan starts from an empty
`longest_match` and only replaces it with strictly longer patterns, so an
empty registered pattern is never selected by prefix matching.) -/
theorem serveMux_longest_prefix_routing
    (hs : List (Str × (RWState → RWState))) (w : RWState) (url p : Str)
    (h : RWState → RWState)
    (hnd : (hs.map Prod.fst).Nodup) :
    ((url, h) ∈ hs → ServeHTTP hs w url = h w)
    ∧ (url ∉ hs.map Prod.fst → (p, h) ∈ hs → p ≠ [] → hasPre p url = true →
        (∀ q ∈ hs.map Prod.fst, hasPre q url = true → q.length ≤ p.length) →
        ServeHTTP hs w url = h w)
    ∧ (url ∉ hs.map Prod.fst →
        (∀ q ∈ hs.map Prod.fst, hasPre q url = true → q = []) →
        ServeHTTP hs w url = RWWrite (WriteHeader w 404) "404 page not found\n")
    ∧ (RWWrite (WriteHeader initRW 404) "404 page not found\n").out
        = "HTTP/1.1 404 Not Found\r\n\r\n404 page not found\n" := by
  refine ⟨?_, ?_, ?_, by decide⟩
  · intro hmem
    have hfe := findExact_mem url h hs hmem hnd
    unfold ServeHTTP
    rw [hfe]
  · intro hnotin hmem hne hpre hbound
    have hfe := findExact_eq_none url hs hnotin
    have hscan := prefixScan_sel url p h hs [] none hmem hpre hbound hnd
      (List.length_pos.mpr hne)
    unfold ServeHTTP
    rw [hfe, hscan]
    simp [hne]
  · intro hnotin hallnil
    have hfe := findExact_eq_none url hs hnotin
    have hscan := prefixScan_stay url hs [] none (fun q hq hpre => by
      rw [hallnil q hq hpre])
    unfold ServeHTTP
    rw [hfe, hscan]
    simp

/-- Witness for C1: with `"/a"` and `"/a/b"` registered, a request for
`"/a/b/c"` runs the `"/a/b"` handler, and a request for `"/z"` produces
the 404 response. -/
theorem serveMux_longest_prefix_routing_witness :
    ServeHTTP [("/a".data, fun s => RWWrite s "A"),
        ("/a/b".data, fun s => RWWrite s "B")] initRW "/a/b/c".data
      = RWWrite initRW "B"
    ∧ ServeHTTP [("/a".data, fun s => RWWrite s "A"),
        ("/a/b".data, fun s => RWWrite s "B")] initRW "/z".data
      = RWWrite (WriteHeader initRW 404) "404 page not found\n" := by
  constructor
  · have t := serveMux_longest_prefix_routing
      [("/a".data, fun s => RWWrite s "A"), ("/a/b".data, fun s => RWWrite s "B")]
      initRW "/a/b/c".data "/a/b".data (fun s => RWWrite s "B") (by decide)
    exact t.2.1 (by decide) (List.mem_cons_of_mem _ (List.mem_cons_self _ _))
      (by decide) (by decide) (by decide)
  · have t := serveMux_longest_prefix_routing
      [("/a".data, fun s => RWWrite s "A"), ("/a/b".data, fun s => RWWrite s "B")]
      initRW "/z".data [] id (by decide)
    exact t.2.2.1 (by decide) (by decide)

/-- Counterexample to C1 as stated: the empty pattern is registered and is
a string prefix of `"/z"`, yet `ServeHTTP` produces the 404 response
instead of dispatching to its handler. -/
theorem serveMux_empty_pattern_counterexample :
    hasPre [] ['/', 'z'] = true
    ∧ ServeHTTP [(([] : Str), fun s => RWWrite s "H")] initRW ['/', 'z']
        = RWWrite (WriteHeader initRW 404) "404 page not found\n"
    ∧ ServeHTTP [(([] : Str), fun s => RWWrite s "H")] initRW ['/', 'z']
        ≠ RWWrite initRW "H" := by
  refine ⟨rfl, rfl, by decide⟩


/-- **C3.** A `TCPConn::Read` on an open connection whose `recv` returns
zero bytes with no error (peer closed) surfaces the `Closed` error, and
`Read` never returns a successful result carrying zero bytes. -/
theorem tcpRead_zero_bytes_is_closed (c : TCPConn) (recv : SysRes)
    (h : c.closed = false) :
    (TCPConn.Read c (.ok 0)).2 = ⟨0, some .closed⟩
    ∧ ((TCPConn.Read c recv).2.err = none → (TCPConn.Read c recv).2.value ≠ 0) := by
  constructor
  · simp [TCPConn.Read, h]
  · intro hok hzero
    cases recv with
    | err e => simp [TCPConn.Read, h] at hok
    | ok n =>
      cases n with
      | zero => simp [TCPConn.Read, h] at hok
      | succ m => simp [TCPConn.Read, h] at hzero

/-- Witness for C3 on a fresh connection. -/
theorem tcpRead_zero_bytes_is_closed_witness :
    (TCPConn.Read TCPConn.fresh (.ok 0)).2 = ⟨0, some .closed⟩
    ∧ (TCPConn.Read TCPConn.fresh (.ok 3)).2.value ≠ 0 :=
  ⟨(tcpRead_zero_bytes_is_closed TCPConn.fresh (.ok 0) rfl).1,
   (tcpRead_zero_bytes_is_closed TCPConn.fresh (.ok 3) rfl).2 rfl⟩

/-- Counterexample to C4 as stated: on a `TCPListener` the first `Close`
succeeds but the second returns the `Closed` error — an error distinct
from the first call's result. -/
theorem listenerClose_second_call_errors_counterexample :
    (TCPListener.Close TCPListener.fresh).2 = none
    ∧ (TCPListener.Close (TCPListener.Close TCPListener.fresh).1).2 = some .closed
    ∧ (TCPListener.Close (TCPListener.Close TCPListener.fresh).1).2
        ≠ (TCPListener.Close TCPListener.fresh).2 := by
  refine ⟨rfl, rfl, by decide⟩

/-- **C4 (amended).** Close never double-releases the OS handle and a
second close never changes the state: for connections (`TCPConn::close`,
`UDPConn::close`) the second call is a complete no-op with no error
report at all, while for `TCPListener::Close` the second call leaves the
state and the release count unchanged but reports the `Closed` error
instead of repeating the first call's success. -/
theorem close_idempotent_no_double_release (c : TCPConn) (u : UDPConn)
    (l : TCPListener) :
    TCPConn.close (TCPConn.close c) = TCPConn.close c
    ∧ (TCPConn.close c).releases ≤ c.releases + 1
    ∧ UDPConn.close (UDPConn.close u) = UDPConn.close u
    ∧ (UDPConn.close u).releases ≤ u.releases + 1
    ∧ (TCPListener.Close (TCPListener.Close l).1).1 = (TCPListener.Close l).1
    ∧ (TCPListener.Close l).1.releases ≤ l.releases + 1
    ∧ (l.closed = false →
        (TCPListener.Close l).2 = none
        ∧ (TCPListener.Close (TCPListener.Close l).1).2 = some .closed) := by
  by_cases hc : c.closed
  all_goals by_cases hu : u.closed
  all_goals by_cases hl : l.closed
  all_goals refine ⟨?_, ?_, ?_, ?_, ?_, ?_, ?_⟩
  all_goals simp [TCPConn.close, UDPConn.close, TCPListener.Close, hc, hu, hl]

/-- Witness for C4's amended statement on fresh endpoints. -/
theorem close_idempotent_no_double_release_witness :
    TCPConn.close (TCPConn.close TCPConn.fresh) = TCPConn.close TCPConn.fresh
    ∧ (TCPListener.Close TCPListener.fresh).2 = none
    ∧ (TCPListener.Close (TCPListener.Close TCPListener.fresh).1).2
        = some .closed :=
  ⟨(close_idempotent_no_double_release TCPConn.fresh UDPConn.fresh
      TCPListener.fresh).1,
   ((close_idempotent_no_double_release TCPConn.fresh UDPConn.fresh
      TCPListener.fresh).2.2.2.2.2.2 rfl).1,
   ((close_idempotent_no_double_release TCPConn.fresh UDPConn.fresh
      TCPListener.fresh).2.2.2.2.2.2 rfl).2⟩

/-- **C5 (code bug).** The deadline setters only record the time point,
and the blocking paths never consult it: a `Read`/`Write` result is
independent of the recorded deadline value, and its error can be
`Timeout` only when the OS itself reported `ETIMEDOUT` — so a read or
write invoked with an already-elapsed recorded deadline does not return
the `Timeout` error, contrary to the claim. -/
theorem deadlines_recorded_but_not_enforced (c : TCPConn) (d d' : Int)
    (res : SysRes) :
    TCPConn.SetReadDeadline c d = ({ c with read_deadline := d }, none)
    ∧ TCPConn.SetWriteDeadline c d = ({ c with write_deadline := d }, none)
    ∧ TCPConn.SetDeadline c d
        = ({ c with read_deadline := d, write_deadline := d }, none)
    ∧ (TCPConn.Read (TCPConn.SetReadDeadline c d).1 res).2
        = (TCPConn.Read (TCPConn.SetReadDeadline c d').1 res).2
    ∧ (TCPConn.Write (TCPConn.SetWriteDeadline c d).1 res).2
        = (TCPConn.Write (TCPConn.SetWriteDeadline c d').1 res).2
    ∧ ((TCPConn.Read c res).2.err = some .timeout → res = .err .etimedout)
    ∧ ((TCPConn.Write c res).2.err = some .timeout → res = .err .etimedout) := by
  refine ⟨rfl, rfl, rfl, ?_, ?_, ?_, ?_⟩
  · by_cases hc : c.closed
    all_goals cases res with
    | err e => simp [TCPConn.Read, TCPConn.SetReadDeadline, hc]
    | ok n => cases n <;> simp [TCPConn.Read, TCPConn.SetReadDeadline, hc]
  · by_cases hc : c.closed
    all_goals cases res with
    | err e => simp [TCPConn.Write, TCPConn.SetWriteDeadline, hc]
    | ok n => simp [TCPConn.Write, TCPConn.SetWriteDeadline, hc]
  · intro htime
    by_cases hc : c.closed
    · simp [TCPConn.Read, hc] at htime
    · cases res with
      | err e => cases e <;> simp_all [TCPConn.Read, socketErrorToError]
      | ok n => cases n <;> simp [TCPConn.Read, hc] at htime
  · intro htime
    by_cases hc : c.closed
    · simp [TCPConn.Write, hc] at htime
    · cases res with
      | err e => cases e <;> simp_all [TCPConn.Write, socketErrorToError]
      | ok n => simp [TCPConn.Write, hc] at htime

/-- Witness for C5: a fresh connection with an elapsed recorded deadline
(time 0) reads data as if no deadline existed, and the only way a
`Timeout` error appears is via the OS errno. -/
theorem deadlines_recorded_but_not_enforced_witness :
    (TCPConn.Read (TCPConn.SetReadDeadline TCPConn.fresh 0).1 (.ok 5)).2
      = (TCPConn.Read (TCPConn.SetReadDeadline TCPConn.fresh tpMax).1 (.ok 5)).2
    ∧ (.err .etimedout : SysRes) = .err .etimedout :=
  ⟨(deadlines_recorded_but_not_enforced TCPConn.fresh 0 tpMax (.ok 5)).2.2.2.1,
   (deadlines_recorded_but_not_enforced TCPConn.fresh 0 tpMax
      (.err .etimedout)).2.2.2.2.2.1 (by decide)⟩

/-- **C10.** Once a `TCPConn` or `UDPConn` is closed, every data operation
(`Read`, `Write`, `ReadFrom`, `WriteTo`, `WriteToUDP`, `CloseRead`,
`CloseWrite`) returns the `Closed` error with zero bytes, leaves the
connection state untouched, and its result does not depend on the
would-be syscall outcome or arguments — the closed check precedes any
syscall. -/
theorem closed_conn_ops_rejected (c : TCPConn) (u : UDPConn)
    (r r' : SysRes) (sd sd' : Option Errno) (sender sender' : UDPAddr)
    (addr addr' : AddrVal)
    (hc : c.closed = true) (hu : u.closed = true) :
    TCPConn.Read c r = (c, ⟨0, some .closed⟩)
    ∧ TCPConn.Read c r = TCPConn.Read c r'
    ∧ TCPConn.Write c r = (c, ⟨0, some .closed⟩)
    ∧ TCPConn.CloseRead c sd = (c, some .closed)
    ∧ TCPConn.CloseRead c sd = TCPConn.CloseRead c sd'
    ∧ TCPConn.CloseWrite c sd = (c, some .closed)
    ∧ UDPConn.Read u r = (u, ⟨0, some .closed⟩)
    ∧ UDPConn.Write u r = (u, ⟨0, some .closed⟩)
    ∧ UDPConn.ReadFrom u r sender = (u, ⟨0, some .closed⟩, none)
    ∧ UDPConn.ReadFrom u r sender = UDPConn.ReadFrom u r' sender'
    ∧ UDPConn.WriteTo u r addr = (u, ⟨0, some .closed⟩)
    ∧ UDPConn.WriteTo u r addr = UDPConn.WriteTo u r' addr'
    ∧ UDPConn.WriteToUDP u r sender = (u, ⟨0, some .closed⟩) := by
  refine ⟨?_, ?_, ?_, ?_, ?_, ?_, ?_, ?_, ?_, ?_, ?_, ?_, ?_⟩
  all_goals simp [TCPConn.Read, TCPConn.Write, TCPConn.CloseRead,
    TCPConn.CloseWrite, UDPConn.Read, UDPConn.Write, UDPConn.ReadFrom,
    UDPConn.WriteTo, UDPConn.WriteToUDP, hc, hu]

/-- Witness for C10 on explicitly closed connections. -/
theorem closed_conn_ops_rejected_witness :
    TCPConn.Read (TCPConn.close TCPConn.fresh) (.ok 7)
      = (TCPConn.close TCPConn.fresh, ⟨0, some .closed⟩)
    ∧ UDPConn.WriteTo (UDPConn.close UDPConn.fresh) (.ok 7)
        (.udp ⟨"1.2.3.4".data, 9⟩)
      = (UDPConn.close UDPConn.fresh, ⟨0, some .closed⟩) :=
  ⟨(closed_conn_ops_rejected (TCPConn.close TCPConn.fresh)
      (UDPConn.close UDPConn.fresh) (.ok 7) (.ok 7) none none
      ⟨"1.2.3.4".data, 9⟩ ⟨"1.2.3.4".data, 9⟩ (.udp ⟨"1.2.3.4".data, 9⟩)
      (.udp ⟨"1.2.3.4".data, 9⟩) rfl rfl).1,
   (closed_conn_ops_rejected (TCPConn.close TCPConn.fresh)
      (UDPConn.close UDPConn.fresh) (.ok 7) (.ok 7) none none
      ⟨"1.2.3.4".data, 9⟩ ⟨"1.2.3.4".data, 9⟩ (.udp ⟨"1.2.3.4".data, 9⟩)
      (.udp ⟨"1.2.3.4".data, 9⟩) rfl rfl).2.2.2.2.2.2.2.2.2.2.1⟩


lemma hasPre_self_append (p t : Str) : hasPre p (p ++ t) = true := by
  induction p with
  | nil => simp [hasPre]
  | cons c cs ih => simp [hasPre, ih]

lemma firstSlash_some (rest : Str) : ∀ i, firstSlashIdx rest = some i →
    rest.take i = rest.takeWhile notSlash
      ∧ rest.drop i = rest.dropWhile notSlash
      ∧ rest.drop i ≠ [] := by
  induction rest with
  | nil => intro i h; simp [firstSlashIdx] at h
  | cons c cs ih =>
    intro i h
    by_cases hc : c = '/'
    · subst hc
      simp [firstSlashIdx] at h
      subst h
      refine ⟨?_, ?_, ?_⟩
      · simp [List.takeWhile, notSlash]
      · simp [List.dropWhile, notSlash]
      · exact List.cons_ne_nil _ _
    · simp only [firstSlashIdx, if_neg hc] at h
      cases hj : firstSlashIdx cs with
      | none => rw [hj] at h; simp at h
      | some j =>
        rw [hj] at h
        simp at h
        obtain ⟨t1, t2, t3⟩ := ih j hj
        have hcb : notSlash c = true := by simp [notSlash, hc]
        have hi : i = j + 1 := by omega
        subst hi
        refine ⟨?_, ?_, ?_⟩
        · simp [List.takeWhile, hcb, t1]
        · simp [List.dropWhile, hcb, t2]
        · simpa using t3

lemma firstSlash_none (rest : Str) (h : firstSlashIdx rest = none) :
    rest.takeWhile notSlash = rest ∧ rest.dropWhile notSlash = [] := by
  induction rest with
  | nil => exact ⟨rfl, rfl⟩
  | cons c cs ih =>
    by_cases hc : c = '/'
    · subst hc; simp [firstSlashIdx] at h
    · cases hj : firstSlashIdx cs with
      | some j =>
        exfalso
        simp only [firstSlashIdx, if_neg hc, hj, Option.map_some] at h
        exact Option.noConfusion h
      | none =>
        obtain ⟨t1, t2⟩ := ih hj
        have hcb : notSlash c = true := by simp [notSlash, hc]
        constructor
        · simp [List.takeWhile, hcb, t1]
        · simp [List.dropWhile, hcb, t2]

lemma parseAddress_bounds {address host : Str} {port : Int}
    (h : parseAddress address = some (host, port)) :
    0 ≤ port ∧ port ≤ 65535 := by
  unfold parseAddress at h
  cases hci : lastColonIdx address with
  | none => rw [hci] at h; simp at h
  | some i =>
    rw [hci] at h
    simp only at h
    cases hst : cppStoi (address.drop (i + 1)) with
    | none => rw [hst] at h; simp at h
    | some p =>
      rw [hst] at h
      by_cases hb : p < 0 ∨ p > 65535
      · simp [hb] at h
      · simp [hb] at h
        obtain ⟨h1, h2⟩ := h
        push_neg at hb
        omega

/-- **C6.** For every allowed network string and every `host:port` input
that `parseAddress` accepts (hence `0 ≤ port ≤ 65535`) and whose host the
resolver maps to an IP, `ResolveTCPAddr`/`ResolveUDPAddr` return the
address `{ip, port}` whose `Network()` is the requested network's
protocol family (`"tcp"`/`"udp"`) and whose string form is the resolved
ip, a colon, and the parsed port. -/
theorem resolveAddr_network_and_roundtrip
    (resolve : Str → Option Str) (network : String) (address host ip : Str)
    (port : Int)
    (hparse : parseAddress address = some (host, port))
    (hres : resolve host = some ip) :
    ((network = "tcp" ∨ network = "tcp4" ∨ network = "tcp6") →
      ResolveTCPAddr resolve network address = .ok ⟨ip, port⟩
      ∧ (TCPAddr.mk ip port).Network = networkFamily network
      ∧ (TCPAddr.mk ip port).toStr = ip ++ ':' :: (toString port).data
      ∧ 0 ≤ port ∧ port ≤ 65535)
    ∧ ((network = "udp" ∨ network = "udp4" ∨ network = "udp6") →
      ResolveUDPAddr resolve network address = .ok ⟨ip, port⟩
      ∧ (UDPAddr.mk ip port).Network = networkFamily network
      ∧ (UDPAddr.mk ip port).toStr = ip ++ ':' :: (toString port).data
      ∧ 0 ≤ port ∧ port ≤ 65535) := by
  obtain ⟨hb1, hb2⟩ := parseAddress_bounds hparse
  constructor
  · intro hnet
    have hcond : ¬(network ≠ "tcp" ∧ network ≠ "tcp4" ∧ network ≠ "tcp6") := by
      rcases hnet with rfl | rfl | rfl <;> simp
    refine ⟨?_, ?_, rfl, hb1, hb2⟩
    · unfold ResolveTCPAddr
      rw [if_neg hcond, hparse]
      simp [hres]
    · rcases hnet with rfl | rfl | rfl <;> rfl
  · intro hnet
    have hcond : ¬(network ≠ "udp" ∧ network ≠ "udp4" ∧ network ≠ "udp6") := by
      rcases hnet with rfl | rfl | rfl <;> simp
    refine ⟨?_, ?_, rfl, hb1, hb2⟩
    · unfold ResolveUDPAddr
      rw [if_neg hcond, hparse]
      simp [hres]
    · rcases hnet with rfl | rfl | rfl <;> rfl

/-- Witness for C6: `"127.0.0.1:8080"` over `"tcp4"` and `"udp"` with a
resolver that maps `127.0.0.1` to itself. -/
theorem resolveAddr_network_and_roundtrip_witness :
    ResolveTCPAddr (fun h => if h = "127.0.0.1".data then some "127.0.0.1".data
        else none) "tcp4" "127.0.0.1:8080".data = .ok ⟨"127.0.0.1".data, 8080⟩
    ∧ (TCPAddr.mk "127.0.0.1".data 8080).Network = networkFamily "tcp4"
    ∧ (TCPAddr.mk "127.0.0.1".data 8080).toStr = "127.0.0.1:8080".data
    ∧ ResolveUDPAddr (fun h => if h = "127.0.0.1".data then some "127.0.0.1".data
        else none) "udp" "127.0.0.1:8080".data = .ok ⟨"127.0.0.1".data, 8080⟩ := by
  have t := resolveAddr_network_and_roundtrip
    (fun h => if h = "127.0.0.1".data then some "127.0.0.1".data else none)
    "tcp4" "127.0.0.1:8080".data "127.0.0.1".data "127.0.0.1".data 8080
    (by decide) (by decide)
  have u := resolveAddr_network_and_roundtrip
    (fun h => if h = "127.0.0.1".data then some "127.0.0.1".data else none)
    "udp" "127.0.0.1:8080".data "127.0.0.1".data "127.0.0.1".data 8080
    (by decide) (by decide)
  have t1 := t.1 (Or.inr (Or.inl rfl))
  have u1 := u.2 (Or.inl rfl)
  exact ⟨t1.1, t1.2.1, by decide, u1.1⟩

/-- **C7.** Through an established TLS session: a read observing
end-of-stream is a zero-byte success, a read observing a would-block
condition is a retryable zero-byte success, but a write observing a
would-block condition is surfaced as the blocking error — the two
directions are asymmetric. -/
theorem tlsReadWrite_asymmetry (call : SSLCall) :
    (call.ret = 0 → TLSConn.Read ⟨true⟩ call = ⟨0, none⟩)
    ∧ (call.ret < 0 → call.errKind = .wantRead ∨ call.errKind = .wantWrite →
        TLSConn.Read ⟨true⟩ call = ⟨0, none⟩)
    ∧ (call.ret ≤ 0 → call.errKind = .wantRead ∨ call.errKind = .wantWrite →
        TLSConn.Write ⟨true⟩ call = ⟨0, some (.mk "SSL_write would block")⟩)
    ∧ (call.ret ≤ 0 → call.errKind = .wantRead ∨ call.errKind = .wantWrite →
        (TLSConn.Read ⟨true⟩ call).err = none
        ∧ (TLSConn.Write ⟨true⟩ call).err ≠ none) := by
  refine ⟨?_, ?_, ?_, ?_⟩
  · intro h0
    simp [TLSConn.Read, h0]
  · intro hneg hk
    have h1 : ¬call.ret > 0 := by omega
    have h2 : ¬call.ret = 0 := by omega
    rcases hk with hk | hk <;> simp [TLSConn.Read, h1, h2, hk]
  · intro hle hk
    have h1 : ¬call.ret > 0 := by omega
    rcases hk with hk | hk <;> simp [TLSConn.Write, h1, hk]
  · intro hle hk
    have h1 : ¬call.ret > 0 := by omega
    constructor
    · by_cases h0 : call.ret = 0
      · simp [TLSConn.Read, h0]
      · rcases hk with hk | hk <;> simp [TLSConn.Read, h1, h0, hk]
    · rcases hk with hk | hk <;> simp [TLSConn.Write, h1, hk]

/-- Witness for C7 at concrete SSL outcomes. -/
theorem tlsReadWrite_asymmetry_witness :
    TLSConn.Read ⟨true⟩ ⟨0, .wantRead⟩ = ⟨0, none⟩
    ∧ TLSConn.Read ⟨true⟩ ⟨-1, .wantRead⟩ = ⟨0, none⟩
    ∧ TLSConn.Write ⟨true⟩ ⟨-1, .wantRead⟩
        = ⟨0, some (.mk "SSL_write would block")⟩ :=
  ⟨(tlsReadWrite_asymmetry ⟨0, .wantRead⟩).1 rfl,
   (tlsReadWrite_asymmetry ⟨-1, .wantRead⟩).2.1 (by decide) (Or.inl rfl),
   (tlsReadWrite_asymmetry ⟨-1, .wantRead⟩).2.2.1 (by decide) (Or.inl rfl)⟩

/-- Counterexample to C8 as stated: a client config with `cert_file` set
but `key_file` empty does not make `DialTLS` fail — the identity pair is
silently skipped and, with every external call succeeding, the dial
completes with no error (and no client identity loaded). -/
theorem dialTLS_single_identity_file_counterexample :
    DialTLS (some ⟨"client.pem", "", "", false⟩)
        ⟨none, true, true, true, true, true, true⟩
      = .ok ⟨true, false, true, false⟩ := by
  rfl

/-- **C8 (amended).** When both `cert_file` and `key_file` are set,
`DialTLS` loads them as the client identity (load failures surface as
errors; on success the context carries the identity); when exactly one
of them is set the pair is silently ignored — `DialTLS` behaves exactly
as if both were empty, and in particular returns no error on account of
the half-set pair. -/
theorem dialTLS_identity_pair (cfg : TLSConfig) (w : DialTLSWorld)
    (ctx : CtxInfo) :
    (cfg.cert_file ≠ "" → cfg.key_file ≠ "" → w.loadCertOk = false →
      dialTLSIdentity cfg w ctx = .error (.mk "Failed to load certificate"))
    ∧ (cfg.cert_file ≠ "" → cfg.key_file ≠ "" → w.loadCertOk = true →
        w.loadKeyOk = true → w.sslNewOk = true → w.handshakeOk = true →
        dialTLSIdentity cfg w ctx = .ok { ctx with identity_loaded := true })
    ∧ (cfg.cert_file = "" ∨ cfg.key_file = "" →
        dialTLSIdentity cfg w ctx = dialTLSFinish w ctx)
    ∧ (cfg.key_file = "" →
        DialTLS (some cfg) w = DialTLS (some { cfg with cert_file := "" }) w) := by
  refine ⟨?_, ?_, ?_, ?_⟩
  · intro hcert hkey hload
    simp [dialTLSIdentity, hcert, hkey, hload]
  · intro hcert hkey hc hk hs hh
    simp [dialTLSIdentity, dialTLSFinish, hcert, hkey, hc, hk, hs, hh]
  · intro hone
    rcases hone with hone | hone <;> simp [dialTLSIdentity, hone]
  · intro hkey
    have hid : ∀ ctx' : CtxInfo,
        dialTLSIdentity cfg w ctx'
          = dialTLSIdentity { cfg with cert_file := "" } w ctx' := by
      intro ctx'
      simp [dialTLSIdentity, hkey]
    unfold DialTLS
    cases w.dial with
    | some e => rfl
    | none =>
      by_cases hctx : w.ctxNewOk
      all_goals by_cases hins : cfg.insecure_skip_verify
      all_goals by_cases hca : cfg.ca_file = ""
      all_goals simp [hctx, hins, hca, hid]

/-- Witness for C8's amended statement: a full mutual-TLS config loads
the identity, and clearing one half makes the dial identical to a config
with no identity at all. -/
theorem dialTLS_identity_pair_witness :
    dialTLSIdentity ⟨"c.pem", "k.pem", "", false⟩
        ⟨none, true, true, true, true, true, true⟩ ⟨true, false, true, false⟩
      = .ok ⟨true, false, true, true⟩
    ∧ DialTLS (some ⟨"c.pem", "", "", false⟩)
        ⟨none, true, true, true, true, true, true⟩
      = DialTLS (some ⟨"", "", "", false⟩)
        ⟨none, true, true, true, true, true, true⟩ :=
  ⟨(dialTLS_identity_pair ⟨"c.pem", "k.pem", "", false⟩
      ⟨none, true, true, true, true, true, true⟩ ⟨true, false, true, false⟩).2.1
      (by decide) (by decide) rfl rfl rfl rfl,
   (dialTLS_identity_pair ⟨"c.pem", "", "", false⟩
      ⟨none, true, true, true, true, true, true⟩ ⟨true, false, true, false⟩).2.2.2
      rfl⟩

/-- **C9.** `Get`/`Post` URL handling: a url starting with neither
`http://` nor `https://` is an immediate error with no connection
attempt; otherwise the remainder after the scheme splits into the
address — the part before the first `'/'` — and the path — from the
first `'/'`, defaulting to `"/"` — and a default port (80 for http, 443
for https) is appended exactly when the address contains no colon. -/
theorem httpURL_parsing (url rest : Str) :
    (hasPre httpScheme url = false → hasPre httpsScheme url = false →
      httpParseURL url
        = .error (.mk "invalid URL: must start with http:// or https://")
      ∧ httpAttemptsDial url = false)
    ∧ httpParseURL (httpScheme ++ rest)
        = .ok ((if hasColon (rest.takeWhile notSlash) then rest.takeWhile notSlash
                else rest.takeWhile notSlash ++ [':', '8', '0']),
               (if rest.dropWhile notSlash = [] then ['/']
                else rest.dropWhile notSlash),
               false)
    ∧ httpParseURL (httpsScheme ++ rest)
        = .ok ((if hasColon (rest.takeWhile notSlash) then rest.takeWhile notSlash
                else rest.takeWhile notSlash ++ [':', '4', '4', '3']),
               (if rest.dropWhile notSlash = [] then ['/']
                else rest.dropWhile notSlash),
               true) := by
  refine ⟨?_, ?_, ?_⟩
  · intro h1 h2
    constructor
    · simp [httpParseURL, h1, h2]
    · simp [httpAttemptsDial, httpParseURL, h1, h2]
  · have hno : hasPre httpsScheme (httpScheme ++ rest) = false := rfl
    have hyes : hasPre httpScheme (httpScheme ++ rest) = true :=
      hasPre_self_append httpScheme rest
    have hdrop : (httpScheme ++ rest).drop 7 = rest := rfl
    unfold httpParseURL
    rw [hno, hyes]
    simp only [Bool.false_eq_true, if_false, if_true, hdrop]
    cases hfi : firstSlashIdx rest with
    | some i =>
      obtain ⟨t1, t2, t3⟩ := firstSlash_some rest i hfi
      have hne : rest.dropWhile notSlash ≠ [] := by rw [← t2]; exact t3
      simp [t1, t2, hne]
    | none =>
      obtain ⟨t1, t2⟩ := firstSlash_none rest hfi
      simp [t1, t2]
  · have hyes : hasPre httpsScheme (httpsScheme ++ rest) = true :=
      hasPre_self_append httpsScheme rest
    have hdrop : (httpsScheme ++ rest).drop 8 = rest := rfl
    unfold httpParseURL
    rw [hyes]
    simp only [if_true, hdrop]
    cases hfi : firstSlashIdx rest with
    | some i =>
      obtain ⟨t1, t2, t3⟩ := firstSlash_some rest i hfi
      have hne : rest.dropWhile notSlash ≠ [] := by rw [← t2]; exact t3
      simp [t1, t2, hne]
    | none =>
      obtain ⟨t1, t2⟩ := firstSlash_none rest hfi
      simp [t1, t2]

/-- Witness for C9: an `ftp://` url errors with no dial attempt; an
`http://` url splits and gets port 80; an `https://` url with an
explicit port keeps it and defaults the path. -/
theorem httpURL_parsing_witness :
    httpParseURL "ftp://x".data
      = .error (.mk "invalid URL: must start with http:// or https://")
    ∧ httpAttemptsDial "ftp://x".data = false
    ∧ httpParseURL "http://example.com/a/b".data
      = .ok ("example.com:80".data, "/a/b".data, false)
    ∧ httpParseURL "https://example.com:8443".data
      = .ok ("example.com:8443".data, "/".data, true) := by
  have t0 := (httpURL_parsing "ftp://x".data []).1 (by decide) (by decide)
  have t1 := (httpURL_parsing [] "example.com/a/b".data).2.1
  have t2 := (httpURL_parsing [] "example.com:8443".data).2.2
  refine ⟨t0.1, t0.2, ?_, ?_⟩
  · have he : "http://example.com/a/b".data
        = httpScheme ++ "example.com/a/b".data := by decide
    rw [he, t1]
    rfl
  · have he : "https://example.com:8443".data
        = httpsScheme ++ "example.com:8443".data := by decide
    rw [he, t2]
    rfl

end Gocxx
